import Mathlib

/-!
Shallow embedding of the stroke capture, history and rendering engine of
`src/components/canvas/DigitalCanvas.tsx` (scribe-sync-canvas), together
with theorems about its undo/redo history, input capture, renderer and
viewport behaviour.

Machine conventions: JS numbers are modelled as `ℚ` (coordinates, widths,
scale), millisecond timestamps as `ℕ`, and colours as their literal hex
strings.  Event handlers receive the ambient data they read (event
coordinates, the surface bounding rectangle, the current clock value) as
explicit arguments.
-/

/-- One sample of a stroke: the `{ x, y, pressure, timestamp }` records
pushed into `PenStroke.points` (DigitalCanvas.tsx lines 164, 200, 226, 265). -/
structure Point where
  x : ℚ
  y : ℚ
  pressure : ℚ
  timestamp : ℕ
  deriving DecidableEq, Repr

/-- The `PenStroke` record of `PenDataInterpreter`: an ordered point list,
a colour string, a line width and an id string. -/
structure PenStroke where
  points : List Point
  color : String
  width : ℚ
  id : String
  deriving DecidableEq, Repr

/-- The four drawing tools of the component (`useState<"pen" | "finger" |
"eraser" | "hand">`, line 22). -/
inductive Tool
  | pen
  | finger
  | eraser
  | hand
  deriving DecidableEq, Repr

/-- The component state of `DigitalCanvas`: the notebook context's stroke
log for the active page (`strokes`), the local redo stack, the tool/colour/
width/scale state hooks, the `isDrawing`/`isErasing` flags, and the mounted
render surface (`canvasRef.current`, with its pixel width and height;
`canvasMounted = false` models a null ref). -/
structure CanvasState where
  strokes : List PenStroke
  redoStack : List PenStroke
  tool : Tool
  isErasing : Bool
  color : String
  lineWidth : ℚ
  scale : ℚ
  isDrawing : Bool
  canvasMounted : Bool
  width : ℕ
  height : ℕ
  deriving DecidableEq, Repr

/-- Modelled from the spec: the notebook collaborator's `addStroke`
(§6: the page collaborator exposes the active page's stroke log
read/write; a produced stroke is "pushed into the History Manager's log",
i.e. appended at the end). -/
def addStroke (s : CanvasState) (stroke : PenStroke) : CanvasState :=
  { s with strokes := s.strokes ++ [stroke] }

/-- Modelled from the spec: the notebook collaborator's `updateStrokes`,
replacing the active page's stroke log wholesale. -/
def updateStrokes (s : CanvasState) (newStrokes : List PenStroke) : CanvasState :=
  { s with strokes := newStrokes }

/-- Modelled from the spec: the notebook collaborator's `clearStrokes`
(§6), emptying the active page's stroke log. -/
def clearStrokes (s : CanvasState) : CanvasState :=
  { s with strokes := [] }

/-- `handleUndo` (lines 281-290): early return when the log is empty;
otherwise remove the last stroke from the log, append it to the redo
stack, and redraw.  The boolean records whether a full redraw was
triggered. -/
def handleUndo (s : CanvasState) : CanvasState × Bool :=
  match s.strokes.getLast? with
  | none => (s, false)
  | some lastStroke =>
      ({ s with
          strokes := s.strokes.dropLast
          redoStack := s.redoStack ++ [lastStroke] }, true)

/-- `handleRedo` (lines 293-301): early return when the redo stack is
empty; otherwise pop the top (last) element of the redo stack and append
it to the log, then redraw. -/
def handleRedo (s : CanvasState) : CanvasState × Bool :=
  match s.redoStack.getLast? with
  | none => (s, false)
  | some strokeToRedo =>
      ({ s with
          redoStack := s.redoStack.dropLast
          strokes := s.strokes ++ [strokeToRedo] }, true)

/-- State part of one undo step. -/
def undoStep (s : CanvasState) : CanvasState :=
  (handleUndo s).1

/-- State part of one redo step. -/
def redoStep (s : CanvasState) : CanvasState :=
  (handleRedo s).1

/- Concrete states used by witnesses and counterexamples. -/

/-- A sample stroke. -/
def stR : PenStroke :=
  { points := [{ x := 1, y := 2, pressure := 1, timestamp := 3 }]
    color := "#000000", width := 2, id := "3" }

/-- A second, distinct sample stroke. -/
def stB : PenStroke :=
  { points := [{ x := 4, y := 5, pressure := 1, timestamp := 6 }]
    color := "#ff0000", width := 4, id := "6" }

/-- A component state with an empty log and empty redo stack. -/
def emptyState : CanvasState :=
  { strokes := [], redoStack := [], tool := Tool.pen, isErasing := false
    color := "#000000", lineWidth := 2, scale := 1, isDrawing := false
    canvasMounted := true, width := 800, height := 600 }

/-- A state whose log holds one stroke and whose redo stack is non-empty. -/
def oneStrokeState : CanvasState :=
  { emptyState with strokes := [stR], redoStack := [stB] }

/-- C2: undo is a no-op on an empty log; on a non-empty log it pops
exactly the last stroke, pushes that stroke onto the redo stack (log
shrinks by one, redo stack grows by one) and triggers a full redraw. -/
theorem undo_empty_noop_nonempty_pops (s : CanvasState) :
    (s.strokes = [] → handleUndo s = (s, false)) ∧
    (∀ rest st, s.strokes = rest ++ [st] →
      (handleUndo s).1.strokes = rest ∧
      (handleUndo s).1.redoStack = s.redoStack ++ [st] ∧
      (handleUndo s).1.strokes.length + 1 = s.strokes.length ∧
      (handleUndo s).1.redoStack.length = s.redoStack.length + 1 ∧
      (handleUndo s).2 = true) := by
  constructor
  · intro h
    simp [handleUndo, h]
  · intro rest st h
    simp [handleUndo, h]

/-- C2 witness: the undo theorem instantiated at a concrete empty state
and at a concrete one-stroke state. -/
theorem undo_empty_noop_nonempty_pops_witness :
    (handleUndo emptyState = (emptyState, false)) ∧
    ((handleUndo oneStrokeState).1.strokes = [] ∧
      (handleUndo oneStrokeState).1.redoStack = oneStrokeState.redoStack ++ [stR] ∧
      (handleUndo oneStrokeState).1.strokes.length + 1 = oneStrokeState.strokes.length ∧
      (handleUndo oneStrokeState).1.redoStack.length = oneStrokeState.redoStack.length + 1 ∧
      (handleUndo oneStrokeState).2 = true) :=
  ⟨(undo_empty_noop_nonempty_pops emptyState).1 rfl,
   (undo_empty_noop_nonempty_pops oneStrokeState).2 [] stR rfl⟩

/-- C3: redo is a no-op on an empty redo stack; on a non-empty redo stack
it pops exactly the top item, appends that stroke to the end of the log
(log grows by one, redo stack shrinks by one) and triggers a full
redraw. -/
theorem redo_empty_noop_nonempty_appends (s : CanvasState) :
    (s.redoStack = [] → handleRedo s = (s, false)) ∧
    (∀ rest st, s.redoStack = rest ++ [st] →
      (handleRedo s).1.redoStack = rest ∧
      (handleRedo s).1.strokes = s.strokes ++ [st] ∧
      (handleRedo s).1.strokes.length = s.strokes.length + 1 ∧
      (handleRedo s).1.redoStack.length + 1 = s.redoStack.length ∧
      (handleRedo s).2 = true) := by
  constructor
  · intro h
    simp [handleRedo, h]
  · intro rest st h
    simp [handleRedo, h]

/-- C3 witness: the redo theorem instantiated at a concrete state with an
empty redo stack and at one with a non-empty redo stack. -/
theorem redo_empty_noop_nonempty_appends_witness :
    (handleRedo emptyState = (emptyState, false)) ∧
    ((handleRedo oneStrokeState).1.redoStack = [] ∧
      (handleRedo oneStrokeState).1.strokes = oneStrokeState.strokes ++ [stB] ∧
      (handleRedo oneStrokeState).1.strokes.length = oneStrokeState.strokes.length + 1 ∧
      (handleRedo oneStrokeState).1.redoStack.length + 1 = oneStrokeState.redoStack.length ∧
      (handleRedo oneStrokeState).2 = true) :=
  ⟨(redo_empty_noop_nonempty_appends emptyState).1 rfl,
   (redo_empty_noop_nonempty_appends oneStrokeState).2 [] stB rfl⟩

/-- One undo immediately followed by one redo restores the state exactly,
whenever the log is non-empty. -/
theorem redo_undo_cancel (s : CanvasState) (h : s.strokes ≠ []) :
    redoStep (undoStep s) = s := by
  rcases List.eq_nil_or_concat s.strokes with h0 | ⟨rest, st, hc⟩
  · exact absurd h0 h
  · rw [List.concat_eq_append] at hc
    simp only [undoStep, redoStep, handleUndo, handleRedo, hc,
      List.getLast?_concat, List.dropLast_concat]
    rw [← hc]

/-- A single undo step decreases the log length by one (saturating at 0). -/
theorem undoStep_strokes_length (s : CanvasState) :
    (undoStep s).strokes.length = s.strokes.length - 1 := by
  rcases List.eq_nil_or_concat s.strokes with h0 | ⟨rest, st, hc⟩
  · simp [undoStep, handleUndo, h0]
  · simp [undoStep, handleUndo, hc]

/-- `n` undo steps decrease the log length by `n` (saturating at 0). -/
theorem undoN_strokes_length (s : CanvasState) (n : ℕ) :
    (undoStep^[n] s).strokes.length = s.strokes.length - n := by
  induction n with
  | zero => simp
  | succ n ih =>
    rw [Function.iterate_succ_apply' undoStep, undoStep_strokes_length, ih]
    omega

/-- C1 (amended): for every state and every `n` not exceeding the log
length, `n` undo operations followed by `n` redo operations restore the
whole component state exactly - same strokes, same order, same point
sequences, and the redo stack returns to its prior contents.  (For
`n` larger than the log length with a non-empty prior redo stack the
round trip does not restore the state; see the counterexample.) -/
theorem undo_redo_roundtrip (s : CanvasState) (n : ℕ) (h : n ≤ s.strokes.length) :
    redoStep^[n] (undoStep^[n] s) = s := by
  induction n with
  | zero => simp
  | succ n ih =>
    rw [Function.iterate_succ_apply' undoStep, Function.iterate_succ_apply redoStep,
      redo_undo_cancel]
    · exact ih (Nat.le_of_succ_le h)
    · intro hnil
      have hl := undoN_strokes_length s n
      rw [hnil] at hl
      simp only [List.length_nil] at hl
      omega

/-- C1 witness: one undo followed by one redo on a concrete one-stroke
state restores it exactly. -/
theorem undo_redo_roundtrip_witness :
    redoStep^[1] (undoStep^[1] oneStrokeState) = oneStrokeState :=
  undo_redo_roundtrip oneStrokeState 1 (by decide)

/-- C1 counterexample: with log `[stR]` and redo stack `[stB]`, two undos
followed by two redos leave the log with 2 strokes instead of its prior 1,
so the unrestricted round-trip claim fails. -/
theorem undo_redo_roundtrip_cex :
    (redoStep^[2] (undoStep^[2] oneStrokeState)).strokes.length = 2 ∧
    oneStrokeState.strokes.length = 1 := by
  constructor <;> rfl

/-- `handleClear` (lines 323-333): early return when the render surface is
not mounted; otherwise call the notebook collaborator's `clearStrokes` and
trigger a full redraw.  Nothing in the handler touches the redo stack. -/
def handleClear (s : CanvasState) : CanvasState × Bool :=
  if s.canvasMounted = false then (s, false)
  else (clearStrokes s, true)

/-- C4 (amended): for every state with a mounted surface, clear empties the
stroke log and triggers a full redraw, but leaves the redo stack exactly as
it was - the code does not clear the redo buffer. -/
theorem clear_empties_log_keeps_redo (s : CanvasState) (hm : s.canvasMounted = true) :
    (handleClear s).1.strokes = [] ∧
    (handleClear s).1.redoStack = s.redoStack ∧
    (handleClear s).2 = true := by
  simp [handleClear, clearStrokes, hm]

/-- C4 witness: the amended clear theorem at a concrete state with a
non-empty log and a non-empty redo stack. -/
theorem clear_empties_log_keeps_redo_witness :
    (handleClear oneStrokeState).1.strokes = [] ∧
    (handleClear oneStrokeState).1.redoStack = oneStrokeState.redoStack ∧
    (handleClear oneStrokeState).2 = true :=
  clear_empties_log_keeps_redo oneStrokeState rfl

/-- C4 counterexample: clearing a state whose redo stack holds `stB` leaves
the redo stack still equal to `[stB]`, not empty, refuting the claim that
clear empties both the log and the redo buffer. -/
theorem clear_empties_log_keeps_redo_cex :
    (handleClear oneStrokeState).1.strokes = [] ∧
    (handleClear oneStrokeState).1.redoStack = [stB] ∧
    [stB] ≠ ([] : List PenStroke) := by
  refine ⟨rfl, rfl, by decide⟩

/-- `startDrawing` (lines 147-175), the mouse pointer-down handler: return
early in hand mode or with no mounted surface; otherwise transform the
event's client coordinates to canvas-local ones by subtracting the surface
bounding-rectangle origin and dividing by the scale, append a fresh
one-point stroke to the log (background colour and triple width when the
erasing flag is set), clear the redo stack and set the drawing flag.  The
fresh id is `Date.now().toString()`, i.e. the decimal string of `now`. -/
def startDrawing (s : CanvasState) (clientX clientY rectLeft rectTop : ℚ)
    (now : ℕ) : CanvasState :=
  if s.tool = Tool.hand then s
  else if s.canvasMounted = false then s
  else
    let x := (clientX - rectLeft) / s.scale
    let y := (clientY - rectTop) / s.scale
    let newStroke : PenStroke :=
      { points := [{ x := x, y := y, pressure := 1, timestamp := now }]
        color := if s.isErasing then "#ffffff" else s.color
        width := if s.isErasing then s.lineWidth * 3 else s.lineWidth
        id := Nat.repr now }
    { addStroke s newStroke with redoStack := [], isDrawing := true }

/-- `handleTouchStart` (lines 208-237), the touch-start handler: return
early unless the tool is finger and the surface is mounted; otherwise as
for the mouse handler but always with the active colour and width. -/
def handleTouchStart (s : CanvasState) (touchX touchY rectLeft rectTop : ℚ)
    (now : ℕ) : CanvasState :=
  if s.tool ≠ Tool.finger ∨ s.canvasMounted = false then s
  else
    let x := (touchX - rectLeft) / s.scale
    let y := (touchY - rectTop) / s.scale
    let newStroke : PenStroke :=
      { points := [{ x := x, y := y, pressure := 1, timestamp := now }]
        color := s.color
        width := s.lineWidth
        id := Nat.repr now }
    { addStroke s newStroke with redoStack := [], isDrawing := true }

/-- `handleToolChange` (lines 311-321): set the tool and recompute the
erasing flag, which is true exactly for the eraser tool. -/
def handleToolChange (s : CanvasState) (newTool : Tool) : CanvasState :=
  { s with tool := newTool, isErasing := decide (newTool = Tool.eraser) }

/-- A state in eraser mode (as established by `handleToolChange`). -/
def eraserState : CanvasState :=
  { emptyState with tool := Tool.eraser, isErasing := true }

/-- A state in finger mode. -/
def fingerState : CanvasState :=
  { emptyState with tool := Tool.finger }

/-- A state in hand mode. -/
def handState : CanvasState :=
  { emptyState with tool := Tool.hand }

/-- C5: on a pointer-down handled with a mounted surface (and the erasing
flag consistent with the tool, as `handleToolChange` keeps it), a new
stroke is appended whose single point is `(client - origin) / scale` with
pressure 1 and the current timestamp, whose colour is the background
colour for the eraser tool and the active colour otherwise, and whose
width is triple the active width for the eraser tool and the active width
otherwise; the redo stack is cleared.  The touch-start handler does the
same with the active colour and width (its tool, finger, is never the
eraser). -/
theorem pointer_down_new_stroke (s : CanvasState) (cx cy l t : ℚ) (now : ℕ)
    (hm : s.canvasMounted = true)
    (hi : s.isErasing = decide (s.tool = Tool.eraser)) :
    (s.tool ≠ Tool.hand →
      startDrawing s cx cy l t now =
        { s with
            strokes := s.strokes ++
              [{ points := [{ x := (cx - l) / s.scale, y := (cy - t) / s.scale,
                              pressure := 1, timestamp := now }]
                 color := if s.tool = Tool.eraser then "#ffffff" else s.color
                 width := if s.tool = Tool.eraser then s.lineWidth * 3 else s.lineWidth
                 id := Nat.repr now }]
            redoStack := []
            isDrawing := true }) ∧
    (s.tool = Tool.finger →
      handleTouchStart s cx cy l t now =
        { s with
            strokes := s.strokes ++
              [{ points := [{ x := (cx - l) / s.scale, y := (cy - t) / s.scale,
                              pressure := 1, timestamp := now }]
                 color := s.color
                 width := s.lineWidth
                 id := Nat.repr now }]
            redoStack := []
            isDrawing := true }) := by
  constructor
  · intro hh
    simp [startDrawing, addStroke, hh, hm, hi]
  · intro hf
    simp [handleTouchStart, addStroke, hf, hm]

/-- C5 witness: the pointer-down theorem at a concrete eraser-mode state
(mouse) and at a concrete finger-mode state (touch). -/
theorem pointer_down_new_stroke_witness :
    (startDrawing eraserState 4 6 1 2 9 =
      { eraserState with
          strokes := eraserState.strokes ++
            [{ points := [{ x := (4 - 1) / eraserState.scale,
                            y := (6 - 2) / eraserState.scale,
                            pressure := 1, timestamp := 9 }]
               color := if eraserState.tool = Tool.eraser then "#ffffff" else eraserState.color
               width := if eraserState.tool = Tool.eraser then eraserState.lineWidth * 3
                        else eraserState.lineWidth
               id := Nat.repr 9 }]
          redoStack := []
          isDrawing := true }) ∧
    (handleTouchStart fingerState 4 6 1 2 9 =
      { fingerState with
          strokes := fingerState.strokes ++
            [{ points := [{ x := (4 - 1) / fingerState.scale,
                            y := (6 - 2) / fingerState.scale,
                            pressure := 1, timestamp := 9 }]
               color := fingerState.color
               width := fingerState.lineWidth
               id := Nat.repr 9 }]
          redoStack := []
          isDrawing := true }) :=
  ⟨(pointer_down_new_stroke eraserState 4 6 1 2 9 rfl rfl).1 (by decide),
   (pointer_down_new_stroke fingerState 4 6 1 2 9 rfl rfl).2 rfl⟩

/-- C6 (amended): with a mounted surface, a mouse pointer-down begins a
stroke exactly when the tool is not hand - so also in finger mode, not
only for pen and eraser; a touch-start begins a stroke exactly when the
tool is finger; with the hand tool neither source begins a stroke. -/
theorem stroke_begin_tool_gating (s : CanvasState) (cx cy l t : ℚ) (now : ℕ)
    (hm : s.canvasMounted = true) :
    (s.tool = Tool.hand → startDrawing s cx cy l t now = s) ∧
    (s.tool ≠ Tool.hand →
      (startDrawing s cx cy l t now).strokes.length = s.strokes.length + 1) ∧
    (s.tool ≠ Tool.finger → handleTouchStart s cx cy l t now = s) ∧
    (s.tool = Tool.finger →
      (handleTouchStart s cx cy l t now).strokes.length = s.strokes.length + 1) := by
  refine ⟨fun hh => by simp [startDrawing, hh],
    fun hh => by simp [startDrawing, addStroke, hh, hm],
    fun hf => by simp [handleTouchStart, hf],
    fun hf => by simp [handleTouchStart, addStroke, hf, hm]⟩

/-- C6 witness: the gating theorem at concrete hand-, pen- and finger-mode
states. -/
theorem stroke_begin_tool_gating_witness :
    (startDrawing handState 0 0 0 0 0 = handState) ∧
    ((startDrawing emptyState 0 0 0 0 0).strokes.length =
      emptyState.strokes.length + 1) ∧
    (handleTouchStart emptyState 0 0 0 0 0 = emptyState) ∧
    ((handleTouchStart fingerState 0 0 0 0 0).strokes.length =
      fingerState.strokes.length + 1) :=
  ⟨(stroke_begin_tool_gating handState 0 0 0 0 0 rfl).1 rfl,
   (stroke_begin_tool_gating emptyState 0 0 0 0 0 rfl).2.1 (by decide),
   (stroke_begin_tool_gating emptyState 0 0 0 0 0 rfl).2.2.1 (by decide),
   (stroke_begin_tool_gating fingerState 0 0 0 0 0 rfl).2.2.2 rfl⟩

/-- C6 counterexample: in finger mode a mouse pointer-down does begin a
stroke, although finger is neither pen nor eraser - the mouse handler only
blocks the hand tool, refuting the claimed mouse/tool consistency. -/
theorem stroke_begin_tool_gating_cex :
    fingerState.tool ≠ Tool.pen ∧ fingerState.tool ≠ Tool.eraser ∧
    (startDrawing fingerState 4 6 1 2 9).strokes.length =
      fingerState.strokes.length + 1 :=
  ⟨by decide, by decide, rfl⟩

/-- One 2D-context call of the renderer; the sequence of such calls is the
renderer's observable output. -/
inductive RenderOp
  | setFillStyle (c : String)
  | fillRect (x y w h : ℚ)
  | setStrokeStyle (c : String)
  | setLineWidth (w : ℚ)
  | setLineCap (c : String)
  | setLineJoin (j : String)
  | beginPath
  | moveTo (x y : ℚ)
  | lineTo (x y : ℚ)
  | strokePath
  deriving DecidableEq, Repr

/-- `drawStroke` (lines 125-144): skip with no surface or an empty point
list; otherwise set colour, width and round caps and joins, then trace a
path from the first point with one straight `lineTo` segment per further
point, and stroke it. -/
def drawStroke (mounted : Bool) (stroke : PenStroke) : List RenderOp :=
  match mounted, stroke.points with
  | false, _ => []
  | true, [] => []
  | true, p :: rest =>
      [RenderOp.setStrokeStyle stroke.color, RenderOp.setLineWidth stroke.width,
       RenderOp.setLineCap "round", RenderOp.setLineJoin "round",
       RenderOp.beginPath, RenderOp.moveTo p.x p.y]
      ++ rest.map (fun q => RenderOp.lineTo q.x q.y) ++ [RenderOp.strokePath]

/-- The grid loop of `redrawCanvas` (lines 111-116): the y coordinates
visited by `for (let y = start; y < height; y += 40)`. -/
def gridYs (start height : ℕ) : List ℕ :=
  if h : start < height then start :: gridYs (start + 40) height else []
termination_by height - start
decreasing_by simp_wf; omega

/-- `redrawCanvas` (lines 97-122): with no surface do nothing; otherwise
clear to the background colour, draw the horizontal grid lines (light
gray `#e5e7eb`, width 1, every 40 units starting at 40), then draw every
stroke of the log in order. -/
def redrawCanvas (mounted : Bool) (width height : ℕ) (strokes : List PenStroke) :
    List RenderOp :=
  if mounted = false then []
  else
    [RenderOp.setFillStyle "#ffffff", RenderOp.fillRect 0 0 (width : ℚ) (height : ℚ),
     RenderOp.setStrokeStyle "#e5e7eb", RenderOp.setLineWidth 1]
    ++ (gridYs 40 height).flatMap
        (fun y => [RenderOp.beginPath, RenderOp.moveTo 0 (y : ℚ),
                   RenderOp.lineTo (width : ℚ) (y : ℚ), RenderOp.strokePath])
    ++ strokes.flatMap (drawStroke true)

/-- Membership in the grid loop's list of y coordinates. -/
theorem mem_gridYs (height : ℕ) :
    ∀ fuel start y : ℕ, height - start ≤ fuel →
      (y ∈ gridYs start height ↔ start ≤ y ∧ y < height ∧ 40 ∣ (y - start)) := by
  intro fuel
  induction fuel with
  | zero =>
    intro start y hf
    have hns : ¬ start < height := by omega
    rw [gridYs]
    simp only [hns, dite_false, List.not_mem_nil, false_iff]
    omega
  | succ fuel ih =>
    intro start y hf
    rw [gridYs]
    by_cases h : start < height
    · simp only [h, dite_true, List.mem_cons]
      rw [ih (start + 40) y (by omega)]
      constructor
      · rintro (rfl | ⟨h1, h2, h3⟩)
        · exact ⟨Nat.le_refl _, h, by simp⟩
        · exact ⟨by omega, h2, by omega⟩
      · rintro ⟨h1, h2, h3⟩
        rcases Nat.eq_or_lt_of_le h1 with rfl | hlt
        · exact Or.inl rfl
        · exact Or.inr ⟨by omega, h2, by omega⟩
    · simp only [h, dite_false, List.not_mem_nil, false_iff]
      omega

/-- A concrete two-point stroke. -/
def stSeg : PenStroke :=
  { points := [{ x := 0, y := 0, pressure := 1, timestamp := 0 },
               { x := 10, y := 0, pressure := 1, timestamp := 1 }]
    color := "#000000", width := 2, id := "0" }

/-- C8: a full redraw is exactly: clear the surface to the background
colour, then the horizontal grid lines - whose y coordinates are exactly
the positive multiples of 40 below the canvas height - in light gray at
width 1, then every stroke of the log in log order (later strokes on
top); a stroke is rendered with round line caps and joins as straight
segments between consecutive points, a 2-point stroke yielding exactly
one `lineTo` segment. -/
theorem full_redraw_structure (width height : ℕ) (strokes : List PenStroke)
    (st : PenStroke) (p q : Point) (hpq : st.points = [p, q]) :
    redrawCanvas true width height strokes =
      [RenderOp.setFillStyle "#ffffff",
       RenderOp.fillRect 0 0 (width : ℚ) (height : ℚ),
       RenderOp.setStrokeStyle "#e5e7eb", RenderOp.setLineWidth 1]
      ++ (gridYs 40 height).flatMap
          (fun y => [RenderOp.beginPath, RenderOp.moveTo 0 (y : ℚ),
                     RenderOp.lineTo (width : ℚ) (y : ℚ), RenderOp.strokePath])
      ++ strokes.flatMap (drawStroke true) ∧
    (∀ y, y ∈ gridYs 40 height ↔ 0 < y ∧ y < height ∧ 40 ∣ y) ∧
    drawStroke true st =
      [RenderOp.setStrokeStyle st.color, RenderOp.setLineWidth st.width,
       RenderOp.setLineCap "round", RenderOp.setLineJoin "round",
       RenderOp.beginPath, RenderOp.moveTo p.x p.y, RenderOp.lineTo q.x q.y,
       RenderOp.strokePath] ∧
    ((drawStroke true st).filter fun op =>
        match op with
        | RenderOp.lineTo _ _ => true
        | _ => false).length = 1 := by
  refine ⟨rfl, ?_, ?_, ?_⟩
  · intro y
    rw [mem_gridYs height height 40 y (Nat.sub_le _ _)]
    omega
  · simp [drawStroke, hpq]
  · simp [drawStroke, hpq, List.filter]

/-- C8 witness: the full-redraw theorem at a concrete 100 by 100 surface
whose log holds one two-point stroke. -/
theorem full_redraw_structure_witness :
    redrawCanvas true 100 100 [stSeg] =
      [RenderOp.setFillStyle "#ffffff",
       RenderOp.fillRect 0 0 (100 : ℚ) (100 : ℚ),
       RenderOp.setStrokeStyle "#e5e7eb", RenderOp.setLineWidth 1]
      ++ (gridYs 40 100).flatMap
          (fun y => [RenderOp.beginPath, RenderOp.moveTo 0 (y : ℚ),
                     RenderOp.lineTo (100 : ℚ) (y : ℚ), RenderOp.strokePath])
      ++ [stSeg].flatMap (drawStroke true) ∧
    (∀ y, y ∈ gridYs 40 100 ↔ 0 < y ∧ y < 100 ∧ 40 ∣ y) ∧
    drawStroke true stSeg =
      [RenderOp.setStrokeStyle stSeg.color, RenderOp.setLineWidth stSeg.width,
       RenderOp.setLineCap "round", RenderOp.setLineJoin "round",
       RenderOp.beginPath,
       RenderOp.moveTo (0 : ℚ) (0 : ℚ), RenderOp.lineTo (10 : ℚ) (0 : ℚ),
       RenderOp.strokePath] ∧
    ((drawStroke true stSeg).filter fun op =>
        match op with
        | RenderOp.lineTo _ _ => true
        | _ => false).length = 1 :=
  full_redraw_structure 100 100 [stSeg] stSeg
    { x := 0, y := 0, pressure := 1, timestamp := 0 }
    { x := 10, y := 0, pressure := 1, timestamp := 1 } rfl

/-- `handleZoomIn` (lines 303-305): `scale := Math.min(scale + 0.1, 3)`. -/
def handleZoomIn (s : CanvasState) : CanvasState :=
  { s with scale := min (s.scale + 1/10) 3 }

/-- `handleZoomOut` (lines 307-309): `scale := Math.max(scale - 0.1, 0.5)`. -/
def handleZoomOut (s : CanvasState) : CanvasState :=
  { s with scale := max (s.scale - 1/10) (1/2) }

/-- C9: from any scale within [0.5, 3], a zoom-in step adds 0.1 and a
zoom-out step subtracts 0.1, saturating at the bounds: the result never
exceeds 3 nor drops below 0.5, and a step at a bound stays at the bound
(no wrap, no error). -/
theorem zoom_clamped (s : CanvasState) (h05 : 1/2 ≤ s.scale) (h3 : s.scale ≤ 3) :
    (1/2 ≤ (handleZoomIn s).scale ∧ (handleZoomIn s).scale ≤ 3) ∧
    (1/2 ≤ (handleZoomOut s).scale ∧ (handleZoomOut s).scale ≤ 3) ∧
    (s.scale ≤ 29/10 → (handleZoomIn s).scale = s.scale + 1/10) ∧
    (3/5 ≤ s.scale → (handleZoomOut s).scale = s.scale - 1/10) ∧
    (s.scale = 3 → (handleZoomIn s).scale = 3) ∧
    (s.scale = 1/2 → (handleZoomOut s).scale = 1/2) := by
  simp only [handleZoomIn, handleZoomOut]
  refine ⟨⟨le_min (by linarith) (by norm_num), min_le_right _ _⟩,
    ⟨le_max_right _ _, max_le (by linarith) (by norm_num)⟩, ?_, ?_, ?_, ?_⟩
  · intro h
    rw [min_eq_left (by linarith)]
  · intro h
    rw [max_eq_left (by linarith)]
  · intro h
    rw [h, min_eq_right (by norm_num)]
  · intro h
    rw [h, max_eq_right (by norm_num)]

/-- C9 witness: the zoom theorem at a concrete state with scale 1. -/
theorem zoom_clamped_witness :
    (1/2 ≤ (handleZoomIn emptyState).scale ∧ (handleZoomIn emptyState).scale ≤ 3) ∧
    (1/2 ≤ (handleZoomOut emptyState).scale ∧ (handleZoomOut emptyState).scale ≤ 3) ∧
    (emptyState.scale ≤ 29/10 →
      (handleZoomIn emptyState).scale = emptyState.scale + 1/10) ∧
    (3/5 ≤ emptyState.scale →
      (handleZoomOut emptyState).scale = emptyState.scale - 1/10) ∧
    (emptyState.scale = 3 → (handleZoomIn emptyState).scale = 3) ∧
    (emptyState.scale = 1/2 → (handleZoomOut emptyState).scale = 1/2) :=
  zoom_clamped emptyState (by norm_num [emptyState]) (by norm_num [emptyState])

/-- The pen-feed callback slot of the `PenDataInterpreter` service.
Modelled from the spec: the pen feed collaborator supplies a registration
point for a single callback receiving completed strokes, and the core can
unregister by passing a null callback (`none`). -/
structure PenFeedSlot where
  onNewStroke : Option (CanvasState → PenStroke → CanvasState × List RenderOp)

/-- Modelled from the spec: `PenDataInterpreter.setOnNewStroke` replaces
the single callback held by the slot. -/
def setOnNewStroke (_slot : PenFeedSlot)
    (cb : Option (CanvasState → PenStroke → CanvasState × List RenderOp)) :
    PenFeedSlot :=
  { onNewStroke := cb }

/-- The callback registered on mount (lines 71-77): `addStroke` the
received stroke into the notebook log and draw it; the strokes-change
effect (lines 86-88) then performs a full redraw of the updated log. -/
def penFeedCallback (s : CanvasState) (stroke : PenStroke) :
    CanvasState × List RenderOp :=
  let s1 := addStroke s stroke
  (s1, drawStroke s.canvasMounted stroke ++
        redrawCanvas s1.canvasMounted s1.width s1.height s1.strokes)

/-- The mount effect's registration (line 71). -/
def mountPenFeed (slot : PenFeedSlot) : PenFeedSlot :=
  setOnNewStroke slot (some penFeedCallback)

/-- The cleanup's unregistration (line 81): a null callback. -/
def unmountPenFeed (slot : PenFeedSlot) : PenFeedSlot :=
  setOnNewStroke slot none

/-- C7: the pen-feed callback appends the received stroke to the active
log exactly once (the new log is the old log with that one stroke at the
end, and the stroke's multiplicity grows by exactly one), a full redraw
of the updated log is requested, and teardown releases the registration
by storing a null callback. -/
theorem pen_feed_appends_once (slot : PenFeedSlot) (s : CanvasState)
    (stroke : PenStroke) (hm : s.canvasMounted = true) :
    (mountPenFeed slot).onNewStroke = some penFeedCallback ∧
    (penFeedCallback s stroke).1.strokes = s.strokes ++ [stroke] ∧
    (penFeedCallback s stroke).1.strokes.count stroke = s.strokes.count stroke + 1 ∧
    (penFeedCallback s stroke).2 =
      drawStroke true stroke ++
        redrawCanvas true s.width s.height (s.strokes ++ [stroke]) ∧
    (unmountPenFeed slot).onNewStroke = none := by
  refine ⟨rfl, rfl, ?_, ?_, rfl⟩
  · simp [penFeedCallback, addStroke]
  · simp [penFeedCallback, addStroke, hm]

/-- C7 witness: the pen-feed theorem at an empty slot, the concrete empty
state and a concrete stroke. -/
theorem pen_feed_appends_once_witness :
    (mountPenFeed { onNewStroke := none }).onNewStroke = some penFeedCallback ∧
    (penFeedCallback emptyState stR).1.strokes = emptyState.strokes ++ [stR] ∧
    (penFeedCallback emptyState stR).1.strokes.count stR =
      emptyState.strokes.count stR + 1 ∧
    (penFeedCallback emptyState stR).2 =
      drawStroke true stR ++
        redrawCanvas true emptyState.width emptyState.height
          (emptyState.strokes ++ [stR]) ∧
    (unmountPenFeed { onNewStroke := none }).onNewStroke = none :=
  pen_feed_appends_once { onNewStroke := none } emptyState stR rfl

/-- `Nat.digitChar` is injective below 10. -/
theorem digitChar_inj_lt : ∀ a < 10, ∀ b < 10,
    Nat.digitChar a = Nat.digitChar b → a = b := by decide

/-- Digit lists below 10 are recovered from their character images. -/
theorem map_digitChar_inj : ∀ l1 l2 : List ℕ, (∀ x ∈ l1, x < 10) →
    (∀ x ∈ l2, x < 10) → l1.map Nat.digitChar = l2.map Nat.digitChar → l1 = l2 := by
  intro l1
  induction l1 with
  | nil =>
    intro l2 _ _ h
    cases l2 with
    | nil => rfl
    | cons b m => simp at h
  | cons a l ih =>
    intro l2 h1 h2 h
    cases l2 with
    | nil => simp at h
    | cons b m =>
      simp only [List.map_cons, List.cons.injEq] at h
      have hab : a = b := digitChar_inj_lt a (h1 a (by simp)) b (h2 b (by simp)) h.1
      have hlm : l = m :=
        ih m (fun x hx => h1 x (by simp [hx])) (fun x hx => h2 x (by simp [hx])) h.2
      rw [hab, hlm]

/-- With enough fuel, `Nat.toDigitsCore` in base 10 produces the reversed
decimal digit characters of `n` followed by the accumulator. -/
theorem toDigitsCore_eq_digits :
    ∀ fuel n : ℕ, ∀ l : List Char, 0 < n → n < fuel →
      Nat.toDigitsCore 10 fuel n l =
        ((Nat.digits 10 n).map Nat.digitChar).reverse ++ l := by
  intro fuel
  induction fuel with
  | zero =>
    intro n l hn hf
    omega
  | succ fuel ih =>
    intro n l hn hf
    simp only [Nat.toDigitsCore]
    by_cases h10 : n / 10 = 0
    · simp [h10, Nat.digits_def' (by norm_num : (1:ℕ) < 10) hn]
    · have hn' : 0 < n / 10 := Nat.pos_of_ne_zero h10
      have hf' : n / 10 < fuel := by
        have : n / 10 < n := Nat.div_lt_self hn (by norm_num)
        omega
      simp only [h10, if_false]
      rw [ih (n / 10) (Nat.digitChar (n % 10) :: l) hn' hf',
        Nat.digits_def' (by norm_num : (1:ℕ) < 10) hn]
      simp

/-- `Nat.toDigits` in base 10: `['0']` for zero, else the reversed decimal
digit characters. -/
theorem toDigits_eq (n : ℕ) :
    Nat.toDigits 10 n =
      if n = 0 then ['0'] else ((Nat.digits 10 n).map Nat.digitChar).reverse := by
  rcases Nat.eq_zero_or_pos n with rfl | hn
  · rfl
  · rw [if_neg (by omega)]
    have h := toDigitsCore_eq_digits (n + 1) n [] hn (Nat.lt_succ_self n)
    simpa [Nat.toDigits] using h

/-- Decimal printing of naturals (`Nat.repr`, the model of
`Date.now().toString()`) is injective. -/
theorem nat_repr_injective : Function.Injective Nat.repr := by
  intro a b h
  have h2 : Nat.toDigits 10 a = Nat.toDigits 10 b := by
    have hdata := congrArg String.data h
    simpa [Nat.repr, List.asString] using hdata
  rw [toDigits_eq, toDigits_eq] at h2
  have hlt : ∀ m : ℕ, ∀ x ∈ Nat.digits 10 m, x < 10 :=
    fun m x hx => Nat.digits_lt_base (by norm_num) hx
  have hzero : ∀ m : ℕ, 0 < m →
      ((Nat.digits 10 m).map Nat.digitChar).reverse = ['0'] → False := by
    intro m hm hrev
    have hmap : (Nat.digits 10 m).map Nat.digitChar = ['0'] := by
      have := congrArg List.reverse hrev
      simpa using this
    have hdig : Nat.digits 10 m = [0] :=
      map_digitChar_inj (Nat.digits 10 m) [0] (hlt m) (by simp) (by simpa using hmap)
    have hof := Nat.ofDigits_digits 10 m
    rw [hdig] at hof
    simp [Nat.ofDigits] at hof
    omega
  rcases Nat.eq_zero_or_pos a with rfl | ha
  · rcases Nat.eq_zero_or_pos b with rfl | hb
    · rfl
    · rw [if_pos rfl, if_neg (by omega)] at h2
      exact absurd h2.symm (fun hc => hzero b hb hc)
  · rcases Nat.eq_zero_or_pos b with rfl | hb
    · rw [if_neg (by omega), if_pos rfl] at h2
      exact absurd h2 (fun hc => hzero a ha hc)
    · rw [if_neg (by omega), if_neg (by omega)] at h2
      have hrev := congrArg List.reverse h2
      simp only [List.reverse_reverse] at hrev
      have hd := map_digitChar_inj _ _ (hlt a) (hlt b) hrev
      have ha' := Nat.ofDigits_digits 10 a
      have hb' := Nat.ofDigits_digits 10 b
      rw [hd] at ha'
      exact ha'.symm.trans hb'

/-- The state after two mouse pointer-down events in the same millisecond
(`Date.now()` returns 5 both times). -/
def sameTickState : CanvasState :=
  startDrawing (startDrawing emptyState 1 1 0 0 5) 2 2 0 0 5

/-- C10 counterexample: the two strokes appended by pointer-downs within
one millisecond are distinct strokes (different points) carrying the same
id string `"5"`, refuting per-page id uniqueness. -/
theorem stroke_id_unique_cex :
    sameTickState.strokes.length = 2 ∧
    sameTickState.strokes[0]? ≠ sameTickState.strokes[1]? ∧
    (sameTickState.strokes[0]?).map PenStroke.id =
      (sameTickState.strokes[1]?).map PenStroke.id := by
  refine ⟨rfl, ?_, rfl⟩
  simp [sameTickState, startDrawing, addStroke, emptyState]

/-- C10 (amended): a stroke appended by a pointer-down or touch-start
carries id `Date.now().toString()`, the decimal string of its creation
millisecond, so strokes created at distinct milliseconds have distinct
ids; two strokes created within the same millisecond, however, share an
id. -/
theorem stroke_id_distinct_ticks (s s2 : CanvasState)
    (cx cy l t cx2 cy2 l2 t2 : ℚ) (now now2 : ℕ) (hne : now ≠ now2)
    (hh : s.tool ≠ Tool.hand) (hm : s.canvasMounted = true)
    (hf : s2.tool = Tool.finger) (hm2 : s2.canvasMounted = true) :
    ((startDrawing s cx cy l t now).strokes.getLast?).map PenStroke.id =
      some (Nat.repr now) ∧
    ((handleTouchStart s2 cx2 cy2 l2 t2 now2).strokes.getLast?).map PenStroke.id =
      some (Nat.repr now2) ∧
    Nat.repr now ≠ Nat.repr now2 := by
  refine ⟨?_, ?_, fun hc => hne (nat_repr_injective hc)⟩
  · simp [startDrawing, addStroke, hh, hm]
  · simp [handleTouchStart, addStroke, hf, hm2]

/-- C10 witness: the amended id theorem at concrete states and the
distinct milliseconds 5 and 6. -/
theorem stroke_id_distinct_ticks_witness :
    ((startDrawing emptyState 1 1 0 0 5).strokes.getLast?).map PenStroke.id =
      some (Nat.repr 5) ∧
    ((handleTouchStart fingerState 2 2 0 0 6).strokes.getLast?).map PenStroke.id =
      some (Nat.repr 6) ∧
    Nat.repr 5 ≠ Nat.repr 6 :=
  stroke_id_distinct_ticks emptyState fingerState 1 1 0 0 2 2 0 0 5 6
    (by decide) (by decide) rfl rfl rfl
